import Mathlib

/-!
Verification of the Audio Synthesis & Playback Engine in `src/App.tsx`.

The development shallowly embeds the engine-relevant parts of the source:
the WAV container encoder `audioBufferToWav` (with its helper `writeString`),
the karaoke progress computation inside the `updateKaraoke` tick, and the
stateful playback controller (`playAudio`, `handleStop`, the parameter
`useEffect`, and the `onended` natural-end callback).  JavaScript numbers are
modelled as rationals, byte buffers as lists of naturals (each < 256 by
construction), and the React component state as an explicit `Engine` record
threaded through the transition functions.
-/

namespace AIVoice

/-- Decoded multi-channel sample data, mirroring the `AudioBuffer` consumed by
`audioBufferToWav` in `src/App.tsx`: `length` is the frame count
(`buffer.length`), `channelData` the per-channel sample arrays
(`buffer.getChannelData(i)`), samples modelled as rationals. -/
structure SampleBuffer where
  sampleRate : Nat
  numberOfChannels : Nat
  length : Nat
  channelData : List (List ℚ)
deriving DecidableEq

/-- Read `channelData[ch][i]`.  An out-of-range read defaults to 0, which
matches the bytes the encoder stores in that situation (in JS an out-of-range
typed-array read yields `undefined`, the clamp turns it into `NaN`, and
`setInt16` stores `NaN` as 0). -/
def SampleBuffer.getSample (b : SampleBuffer) (ch i : Nat) : ℚ :=
  (b.channelData.getD ch []).getD i 0

/-- `buffer.duration`: frame count divided by sample rate (seconds). -/
def SampleBuffer.duration (b : SampleBuffer) : ℚ :=
  (b.length : ℚ) / (b.sampleRate : ℚ)

/-- Bytes stored by `writeString` (`src/App.tsx`): one `setUint8` of
`charCodeAt(i)` per character (`setUint8` wraps modulo 256). -/
def asciiBytes (s : String) : List Nat :=
  s.toList.map (fun c => c.toNat % 256)

/-- Little-endian byte pair stored by `DataView.setUint16` (wraps mod 2^16). -/
def u16Bytes (n : Nat) : List Nat :=
  [n % 256, n / 256 % 256]

/-- Little-endian byte quadruple stored by `DataView.setUint32` (wraps mod 2^32). -/
def u32Bytes (n : Nat) : List Nat :=
  [n % 256, n / 256 % 256, n / 65536 % 256, n / 16777216 % 256]

/-- Truncation toward zero, as JS applies when `DataView.setInt16` receives a
fractional number. -/
def ratTrunc (q : ℚ) : Int :=
  if q < 0 then ⌈q⌉ else ⌊q⌋

/-- One iteration of the encoder sample loop in `audioBufferToWav`:
`const s = Math.max(-1, Math.min(1, sample))` followed by
`view.setInt16(offset, s < 0 ? s * 0x8000 : s * 0x7FFF, true)`, where
`setInt16` truncates the scaled value to an integer. -/
def quantizeSample (sample : ℚ) : Int :=
  let s := max (-1) (min 1 sample)
  if s < 0 then ratTrunc (s * 32768) else ratTrunc (s * 32767)

/-- The two little-endian bytes `setInt16(offset, v, true)` stores
(wrap into 16 bits, twos complement). -/
def int16Bytes (v : Int) : List Nat :=
  let u := (v % 65536).toNat
  [u % 256, u / 256 % 256]

/-- The 44-byte RIFF/WAVE header written by `audioBufferToWav`
(offsets 0 through 43, little-endian fields, `length` is the data-chunk
byte count `buffer.length * numChannels * 2`). -/
def wavHeader (numChannels sampleRate frameCount : Nat) : List Nat :=
  let len := frameCount * numChannels * 2
  asciiBytes "RIFF" ++ u32Bytes (36 + len) ++ asciiBytes "WAVE" ++
    asciiBytes "fmt " ++ u32Bytes 16 ++ u16Bytes 1 ++ u16Bytes numChannels ++
    u32Bytes sampleRate ++ u32Bytes (sampleRate * numChannels * 2) ++
    u16Bytes (numChannels * 2) ++ u16Bytes 16 ++ asciiBytes "data" ++
    u32Bytes len

/-- The interleaved sample section of `audioBufferToWav`: outer loop over
frames `i`, inner loop over channels `ch`, two bytes per sample. -/
def sampleBytes (b : SampleBuffer) : List Nat :=
  (List.range b.length).flatMap (fun i =>
    (List.range b.numberOfChannels).flatMap (fun ch =>
      int16Bytes (quantizeSample (b.getSample ch i))))

/-- `audioBufferToWav` from `src/App.tsx`: a 44-byte header followed by the
interleaved 16-bit samples (the returned `Blob` wraps exactly these bytes). -/
def audioBufferToWav (b : SampleBuffer) : List Nat :=
  wavHeader b.numberOfChannels b.sampleRate b.length ++ sampleBytes b

/-- The mono half-second buffer of Scenario A: 12,000 frames at 24,000 Hz. -/
def scenarioABuffer : SampleBuffer :=
  { sampleRate := 24000, numberOfChannels := 1, length := 12000,
    channelData := [List.replicate 12000 0] }

theorem flatMap_const_length {α β : Type} (f : α → List β) (k : Nat) :
    ∀ l : List α, (∀ a ∈ l, (f a).length = k) → (l.flatMap f).length = l.length * k := by
  intro l
  induction l with
  | nil => intro _; simp
  | cons x xs ih =>
    intro h
    rw [List.flatMap_cons, List.length_append, h x (by simp), ih (fun a ha => h a (by simp [ha]))]
    simp [Nat.succ_mul, Nat.add_comm]

theorem wavHeader_length (c sr f : Nat) : (wavHeader c sr f).length = 44 := rfl

theorem int16Bytes_length (v : Int) : (int16Bytes v).length = 2 := rfl

theorem sampleBytes_length (b : SampleBuffer) :
    (sampleBytes b).length = b.length * b.numberOfChannels * 2 := by
  have hin : ∀ i : Nat,
      ((List.range b.numberOfChannels).flatMap (fun ch =>
        int16Bytes (quantizeSample (b.getSample ch i)))).length
        = b.numberOfChannels * 2 := by
    intro i
    rw [flatMap_const_length _ 2 _ (fun ch _ => int16Bytes_length _), List.length_range]
  rw [sampleBytes, flatMap_const_length _ (b.numberOfChannels * 2) _ (fun i _ => hin i),
    List.length_range, Nat.mul_assoc]

/-- C1: the encoder output of any `SampleBuffer` with `frameCount` frames and
`c` channels has byte length `44 + frameCount * c * 2`; in particular the mono
12,000-frame buffer of Scenario A encodes to exactly 24,044 bytes. -/
theorem wav_output_length (b : SampleBuffer) :
    (audioBufferToWav b).length = 44 + b.length * b.numberOfChannels * 2 ∧
    (audioBufferToWav scenarioABuffer).length = 24044 := by
  constructor
  · rw [audioBufferToWav, List.length_append, wavHeader_length, sampleBytes_length]
  · rw [audioBufferToWav, List.length_append, wavHeader_length, sampleBytes_length]
    norm_num [scenarioABuffer]

/-- Little-endian reading of a byte list, used to state which value a header
field declares. -/
def leVal (l : List Nat) : Nat :=
  l.foldr (fun byte acc => byte + 256 * acc) 0

theorem leVal_u16 (n : Nat) (h : n < 65536) : leVal (u16Bytes n) = n := by
  simp only [leVal, u16Bytes, List.foldr]
  omega

theorem leVal_u32 (n : Nat) (h : n < 4294967296) : leVal (u32Bytes n) = n := by
  simp only [leVal, u32Bytes, List.foldr]
  omega

set_option maxHeartbeats 1600000 in
/-- C5: the first 44 bytes of the encoder output form a RIFF/WAVE header:
the RIFF tag with chunk size `36 + dataLen`, the WAVE tag, a `fmt ` chunk of
size 16 declaring PCM format code 1, the channel count, the sample rate,
byte rate `sampleRate * channels * 2`, block align `channels * 2`, bit depth
16, and a `data` chunk declaring `dataLen = frameCount * channels * 2` bytes. -/
theorem wav_header_layout (b : SampleBuffer)
    (hc : b.numberOfChannels * 2 < 65536)
    (hsr : b.sampleRate < 4294967296)
    (hbr : b.sampleRate * b.numberOfChannels * 2 < 4294967296)
    (hlen : 36 + b.length * b.numberOfChannels * 2 < 4294967296) :
    (audioBufferToWav b).take 4 = asciiBytes "RIFF" ∧
    leVal (((audioBufferToWav b).drop 4).take 4)
      = 36 + b.length * b.numberOfChannels * 2 ∧
    ((audioBufferToWav b).drop 8).take 4 = asciiBytes "WAVE" ∧
    ((audioBufferToWav b).drop 12).take 4 = asciiBytes "fmt " ∧
    leVal (((audioBufferToWav b).drop 16).take 4) = 16 ∧
    leVal (((audioBufferToWav b).drop 20).take 2) = 1 ∧
    leVal (((audioBufferToWav b).drop 22).take 2) = b.numberOfChannels ∧
    leVal (((audioBufferToWav b).drop 24).take 4) = b.sampleRate ∧
    leVal (((audioBufferToWav b).drop 28).take 4)
      = b.sampleRate * b.numberOfChannels * 2 ∧
    leVal (((audioBufferToWav b).drop 32).take 2) = b.numberOfChannels * 2 ∧
    leVal (((audioBufferToWav b).drop 34).take 2) = 16 ∧
    ((audioBufferToWav b).drop 36).take 4 = asciiBytes "data" ∧
    leVal (((audioBufferToWav b).drop 40).take 4)
      = b.length * b.numberOfChannels * 2 := by
  have e4 : ((audioBufferToWav b).drop 4).take 4
      = u32Bytes (36 + b.length * b.numberOfChannels * 2) := rfl
  have e16 : ((audioBufferToWav b).drop 16).take 4 = u32Bytes 16 := rfl
  have e20 : ((audioBufferToWav b).drop 20).take 2 = u16Bytes 1 := rfl
  have e22 : ((audioBufferToWav b).drop 22).take 2 = u16Bytes b.numberOfChannels := rfl
  have e24 : ((audioBufferToWav b).drop 24).take 4 = u32Bytes b.sampleRate := rfl
  have e28 : ((audioBufferToWav b).drop 28).take 4
      = u32Bytes (b.sampleRate * b.numberOfChannels * 2) := rfl
  have e32 : ((audioBufferToWav b).drop 32).take 2
      = u16Bytes (b.numberOfChannels * 2) := rfl
  have e34 : ((audioBufferToWav b).drop 34).take 2 = u16Bytes 16 := rfl
  have e40 : ((audioBufferToWav b).drop 40).take 4
      = u32Bytes (b.length * b.numberOfChannels * 2) := rfl
  refine ⟨rfl, ?_, rfl, rfl, ?_, ?_, ?_, ?_, ?_, ?_, ?_, rfl, ?_⟩
  · rw [e4]; exact leVal_u32 _ hlen
  · rw [e16]; exact leVal_u32 _ (by norm_num)
  · rw [e20]; exact leVal_u16 _ (by norm_num)
  · rw [e22]; exact leVal_u16 _ (by omega)
  · rw [e24]; exact leVal_u32 _ hsr
  · rw [e28]; exact leVal_u32 _ hbr
  · rw [e32]; exact leVal_u16 _ hc
  · rw [e34]; exact leVal_u16 _ (by norm_num)
  · rw [e40]; exact leVal_u32 _ (by omega)

theorem range'_flatMap_drop {β : Type} (f : Nat → List β) (k : Nat)
    (hk : ∀ j, (f j).length = k) :
    ∀ (n s i : Nat), i < n →
      ∃ t, ((List.range' s n).flatMap f).drop (i * k) = f (s + i) ++ t := by
  intro n
  induction n with
  | zero => intro s i h; exact absurd h (Nat.not_lt_zero i)
  | succ n ih =>
    intro s i hi
    rw [List.range'_succ, List.flatMap_cons]
    cases i with
    | zero =>
      exact ⟨(List.range' (s + 1) n).flatMap f, by simp⟩
    | succ i =>
      obtain ⟨t, ht⟩ := ih (s + 1) i (by omega)
      refine ⟨t, ?_⟩
      have h1 : (i + 1) * k = (f s).length + i * k := by rw [hk s]; ring
      rw [h1, List.drop_append, ht]
      have h2 : s + 1 + i = s + (i + 1) := by omega
      rw [h2]

theorem take_of_append_drop {β : Type} (x : List β) (t : List β) (m j : Nat)
    (h : m + j ≤ x.length) :
    ((x ++ t).drop m).take j = (x.drop m).take j := by
  rw [List.drop_append_of_le_length (by omega), List.take_append_of_le_length]
  simp
  omega

theorem sampleBytes_extract (b : SampleBuffer) (i ch : Nat)
    (hi : i < b.length) (hch : ch < b.numberOfChannels) :
    ((sampleBytes b).drop ((i * b.numberOfChannels + ch) * 2)).take 2
      = int16Bytes (quantizeSample (b.getSample ch i)) := by
  have hinner : ∀ j : Nat,
      ((List.range b.numberOfChannels).flatMap (fun ch' =>
        int16Bytes (quantizeSample (b.getSample ch' j)))).length
        = b.numberOfChannels * 2 := by
    intro j
    rw [flatMap_const_length _ 2 _ (fun ch' _ => int16Bytes_length _), List.length_range]
  obtain ⟨t, ht⟩ :=
    range'_flatMap_drop
      (fun j => (List.range b.numberOfChannels).flatMap (fun ch' =>
        int16Bytes (quantizeSample (b.getSample ch' j))))
      (b.numberOfChannels * 2) (fun j => hinner j) b.length 0 i hi
  obtain ⟨t', ht'⟩ :=
    range'_flatMap_drop
      (fun ch' => int16Bytes (quantizeSample (b.getSample ch' i)))
      2 (fun ch' => int16Bytes_length _) b.numberOfChannels 0 ch hch
  have hsplit : (i * b.numberOfChannels + ch) * 2
      = i * (b.numberOfChannels * 2) + ch * 2 := by ring
  simp only [Nat.zero_add] at ht ht'
  simp only [List.range_eq_range'] at ht hinner
  rw [hsplit, ← List.drop_drop, sampleBytes]
  simp only [List.range_eq_range']
  rw [ht, take_of_append_drop _ _ _ _ (by rw [hinner i]; omega), ht',
    List.take_append_of_le_length (le_of_eq (int16Bytes_length _).symm),
    ← int16Bytes_length (quantizeSample (b.getSample ch i)), List.take_length]

/-- C4: per-sample quantization of the encoder.  The two bytes stored for
frame `i`, channel `ch` (at offset `44 + (i*c + ch)*2`) encode
`quantizeSample` of that sample, and `quantizeSample` first clamps its input
to `[-1, 1]` and then converts the clamped value `s` to a 16-bit integer by
scaling: truncation of `s * 32768` when `s` is negative, truncation of
`s * 32767` when `s` is non-negative. -/
theorem wav_sample_quantization (b : SampleBuffer) (i ch : Nat) (x : ℚ)
    (hi : i < b.length) (hch : ch < b.numberOfChannels) :
    ((audioBufferToWav b).drop (44 + (i * b.numberOfChannels + ch) * 2)).take 2
      = int16Bytes (quantizeSample (b.getSample ch i)) ∧
    quantizeSample x = quantizeSample (max (-1) (min 1 x)) ∧
    quantizeSample x =
      (if max (-1) (min 1 x) < 0 then ratTrunc (max (-1) (min 1 x) * 32768)
       else ratTrunc (max (-1) (min 1 x) * 32767)) := by
  refine ⟨?_, ?_, rfl⟩
  · have hh : (44 : Nat) + (i * b.numberOfChannels + ch) * 2
        = (wavHeader b.numberOfChannels b.sampleRate b.length).length
          + (i * b.numberOfChannels + ch) * 2 := by
      rw [wavHeader_length]
    rw [audioBufferToWav, hh, List.drop_append]
    exact sampleBytes_extract b i ch hi hch
  · have h1 : min 1 (max (-1) (min 1 x)) = max (-1) (min 1 x) :=
      min_eq_right (max_le (by norm_num) (min_le_left _ _))
    have h2 : max (-1) (min 1 (max (-1) (min 1 x))) = max (-1) (min 1 x) := by
      rw [h1, ← max_assoc, max_self]
    simp only [quantizeSample, h2]

/-- A small concrete stereo buffer used to instantiate theorems with
hypotheses. -/
def demoBuffer : SampleBuffer :=
  { sampleRate := 8000, numberOfChannels := 2, length := 3,
    channelData := [[1/2, -1/2, 0], [1, -1, 1/4]] }

/-- Witness for `wav_header_layout` at the concrete `demoBuffer`. -/
theorem wav_header_layout_witness :
    leVal (((audioBufferToWav demoBuffer).drop 22).take 2) = demoBuffer.numberOfChannels :=
  (wav_header_layout demoBuffer (by decide) (by decide) (by decide)
    (by decide)).2.2.2.2.2.2.1

/-- Witness for `wav_sample_quantization` at frame 0, channel 1 of
`demoBuffer`. -/
theorem wav_sample_quantization_witness :
    ((audioBufferToWav demoBuffer).drop
        (44 + (0 * demoBuffer.numberOfChannels + 1) * 2)).take 2
      = int16Bytes (quantizeSample (demoBuffer.getSample 1 0)) :=
  (wav_sample_quantization demoBuffer 0 1 (3/2) (by decide) (by decide)).1

/-- Replace one stored sample: `channelData[ch][i] = v` (out-of-range indices
leave the buffer unchanged, as `List.set` does). -/
def setSample (b : SampleBuffer) (ch i : Nat) (v : ℚ) : SampleBuffer :=
  { b with channelData :=
      b.channelData.set ch ((b.channelData.getD ch []).set i v) }

theorem getD_set_list {α : Type} (l : List α) (i j : Nat) (a d : α) :
    (l.set i a).getD j d = if i = j ∧ i < l.length then a else l.getD j d := by
  simp only [List.getD_eq_getElem?_getD, List.getElem?_set]
  by_cases h : i = j
  · subst h
    by_cases h2 : i < l.length
    · simp [h2]
    · simp [h2, List.getElem?_eq_none (Nat.le_of_not_lt h2)]
  · simp [h]

theorem getSample_setSample (b : SampleBuffer) (ch i : Nat) (v : ℚ) (ch' i' : Nat) :
    (setSample b ch i v).getSample ch' i'
      = if ch = ch' ∧ ch < b.channelData.length ∧ i = i'
            ∧ i < (b.channelData.getD ch []).length
        then v else b.getSample ch' i' := by
  unfold setSample SampleBuffer.getSample
  simp only
  rw [getD_set_list]
  by_cases h1 : ch = ch' ∧ ch < b.channelData.length
  · rw [if_pos h1]
    obtain ⟨hceq, hclt⟩ := h1
    subst hceq
    rw [getD_set_list]
    by_cases h2 : i = i' ∧ i < (b.channelData.getD ch []).length
    · rw [if_pos h2, if_pos ⟨rfl, hclt, h2.1, h2.2⟩]
    · rw [if_neg h2, if_neg (fun hB => h2 ⟨hB.2.2.1, hB.2.2.2⟩)]
  · rw [if_neg h1, if_neg (fun hB => h1 ⟨hB.1, hB.2.1⟩)]

theorem flatMap_congr {α β : Type} (l : List α) (f g : α → List β)
    (h : ∀ a ∈ l, f a = g a) : l.flatMap f = l.flatMap g := by
  induction l with
  | nil => rfl
  | cons x xs ih =>
    rw [List.flatMap_cons, List.flatMap_cons, h x (by simp),
      ih (fun a ha => h a (by simp [ha]))]

theorem audioBufferToWav_congr (b₁ b₂ : SampleBuffer)
    (hsr : b₁.sampleRate = b₂.sampleRate)
    (hc : b₁.numberOfChannels = b₂.numberOfChannels)
    (hl : b₁.length = b₂.length)
    (hq : ∀ ch i, quantizeSample (b₁.getSample ch i)
        = quantizeSample (b₂.getSample ch i)) :
    audioBufferToWav b₁ = audioBufferToWav b₂ := by
  rw [audioBufferToWav, audioBufferToWav, hsr, hc, hl]
  congr 1
  rw [sampleBytes, sampleBytes, hl, hc]
  apply flatMap_congr
  intro i _
  apply flatMap_congr
  intro ch _
  rw [hq]

/-- C6: out-of-range samples encode exactly like their clamped values: a
buffer with 1.5 written at any position encodes byte-identically to the same
buffer with 1.0 there, and likewise -2.0 versus -1.0. -/
theorem clamp_saturation_encode (b : SampleBuffer) (ch i : Nat) :
    audioBufferToWav (setSample b ch i (3/2)) = audioBufferToWav (setSample b ch i 1) ∧
    audioBufferToWav (setSample b ch i (-2)) = audioBufferToWav (setSample b ch i (-1)) := by
  have hq1 : quantizeSample (3/2) = quantizeSample 1 := by
    have a1 : max (-1 : ℚ) (min 1 (3/2)) = 1 := by
      rw [min_eq_left (by norm_num), max_eq_right (by norm_num)]
    have a2 : max (-1 : ℚ) (min 1 1) = 1 := by
      rw [min_self, max_eq_right (by norm_num)]
    simp only [quantizeSample, a1, a2]
  have hq2 : quantizeSample (-2) = quantizeSample (-1) := by
    have a1 : max (-1 : ℚ) (min 1 (-2)) = -1 := by
      rw [min_eq_right (by norm_num), max_eq_left (by norm_num)]
    have a2 : max (-1 : ℚ) (min 1 (-1)) = -1 := by
      rw [min_eq_right (by norm_num), max_eq_left (by norm_num)]
    simp only [quantizeSample, a1, a2]
  have key : ∀ v w : ℚ, quantizeSample v = quantizeSample w →
      audioBufferToWav (setSample b ch i v) = audioBufferToWav (setSample b ch i w) := by
    intro v w hvw
    apply audioBufferToWav_congr
    · rfl
    · rfl
    · rfl
    · intro ch' i'
      rw [getSample_setSample, getSample_setSample]
      split_ifs with hcond
      · exact hvw
      · rfl
  exact ⟨key _ _ hq1, key _ _ hq2⟩

/-- The index computation of one `updateKaraoke` tick (`src/App.tsx`):
`progress = Math.min(1, elapsed / duration)` and
`index = Math.floor(progress * words.length)` (JS `Math.floor` rounds toward
negative infinity). -/
def karaokeIndex (elapsed duration : ℚ) (wordCount : Nat) : Int :=
  ⌊min 1 (elapsed / duration) * (wordCount : ℚ)⌋

/-- Effective playback duration used by the karaoke loop:
`audioBuffer.duration / playbackRate`. -/
def effectiveDuration (bufferDuration rate : ℚ) : ℚ :=
  bufferDuration / rate

/-- Modelled from the spec: `clamp(x, 0, 1)`, the two-sided clamp the spec
uses in its tick formula (the code only applies the upper bound). -/
def clampUnitSpec (x : ℚ) : ℚ :=
  max 0 (min 1 x)

/-- Modelled from the spec: `index = floor(clamp(elapsed/duration, 0, 1) * wordCount)`. -/
def karaokeIndexSpec (elapsed duration : ℚ) (wordCount : Nat) : Int :=
  ⌊clampUnitSpec (elapsed / duration) * (wordCount : ℚ)⌋

/-- C3: on a karaoke tick with non-negative elapsed time (the clock is read
after the recorded start time) and duration `bufferDuration / rate`, the
emitted index equals `floor(clamp(elapsed/duration, 0, 1) * wordCount)`;
in particular a 4-word transcript with `bufferDuration = 4`, `rate = 1` gives
index 2 at `elapsed = 2`. -/
theorem karaoke_tick_index (elapsed bufferDuration rate : ℚ) (n : Nat)
    (h0 : 0 ≤ elapsed) (hb : 0 < bufferDuration) (hr : 0 < rate) :
    karaokeIndex elapsed (effectiveDuration bufferDuration rate) n
      = karaokeIndexSpec elapsed (effectiveDuration bufferDuration rate) n ∧
    karaokeIndex 2 (effectiveDuration 4 1) 4 = 2 := by
  constructor
  · have hd : 0 < effectiveDuration bufferDuration rate := div_pos hb hr
    have hx : 0 ≤ elapsed / effectiveDuration bufferDuration rate :=
      div_nonneg h0 hd.le
    rw [karaokeIndex, karaokeIndexSpec, clampUnitSpec,
      max_eq_right (le_min (by norm_num) hx)]
  · rw [karaokeIndex, effectiveDuration]
    norm_num

/-- Witness for `karaoke_tick_index`: the Scenario B instance. -/
theorem karaoke_tick_index_witness :
    karaokeIndex 2 (effectiveDuration 4 1) 4
      = karaokeIndexSpec 2 (effectiveDuration 4 1) 4 :=
  (karaoke_tick_index 2 4 1 4 (by norm_num) (by norm_num) (by norm_num)).1

/-- The peaking `BiquadFilterNode` as configured by `initAudio`/`playAudio`:
`type = "peaking"` is implicit in the record, frequency fixed at 3000,
`Q` fixed at 1.0, gain variable. -/
structure FilterNode where
  frequency : ℚ
  q : ℚ
  gain : ℚ
deriving DecidableEq

/-- An `AudioBufferSourceNode` as the engine sees it: identity, bound buffer,
`playbackRate.value`, `detune.value`, and whether its natural end (`onended`)
has fired. -/
structure SourceNode where
  id : Nat
  buf : SampleBuffer
  rate : ℚ
  detune : ℚ
  ended : Bool
deriving DecidableEq

/-- The engine-relevant React state of `App` plus the start-time ref:
`sourceNode`, `filterNode`, `isPlaying`, `audioBuffer`, `currentWordIndex`,
the three playback parameters (`playbackRate`, `pitchShift`, `emphasis`),
`startTimeRef`, and a counter for fresh source identities. -/
structure Engine where
  sourceNode : Option SourceNode
  filterNode : Option FilterNode
  isPlaying : Bool
  audioBuffer : Option SampleBuffer
  currentWordIndex : Int
  playbackRate : ℚ
  pitchShift : ℚ
  emphasis : ℚ
  startTime : ℚ
  nextId : Nat
deriving DecidableEq

/-- Control-plane calls the engine issues to the host audio subsystem, and
errors it lets escape.  The `try { source.stop() } catch(e) {}` blocks in the
source swallow stop errors, so `errorRaised` is never emitted by the modelled
operations. -/
inductive EngineEvent where
  | stopCalled (id : Nat)
  | started (id : Nat)
  | errorRaised
deriving DecidableEq

/-- The parameter-update `useEffect` (`src/App.tsx` lines 187-197): writes
`playbackRate`/`detune` to the current source (if any) and `gain` to the
filter (if any), reading the stored state values. -/
def paramsEffect (e : Engine) : Engine :=
  { e with
    sourceNode := e.sourceNode.map (fun s =>
      { s with rate := e.playbackRate, detune := e.pitchShift }),
    filterNode := e.filterNode.map (fun f => { f with gain := e.emphasis }) }

/-- A slider change: store the new parameter values, after which the
parameter `useEffect` runs.  The `try/catch` around the source writes means
no error escapes, hence the empty event list. -/
def updateParams (rate pitch gain : ℚ) (e : Engine) : Engine × List EngineEvent :=
  (paramsEffect { e with playbackRate := rate, pitchShift := pitch, emphasis := gain }, [])

/-- The filter as `playAudio` creates it when none exists yet (gain is left at
its default 0 there; the parameter effect sets it afterwards). -/
def defaultFilter : FilterNode :=
  { frequency := 3000, q := 1, gain := 0 }

/-- `playAudio(buffer, ctx)` from `src/App.tsx`: a no-op without a buffer;
otherwise stops the previous source (error swallowed), ensures the filter,
creates and starts a fresh source configured from the stored parameters,
records the start time, and marks the engine playing. -/
def playAudio (buffer : Option SampleBuffer) (ctxTime : ℚ) (e : Engine) :
    Engine × List EngineEvent :=
  match buffer with
  | none => (e, [])
  | some buf =>
    let stopEvents := match e.sourceNode with
      | some s => [EngineEvent.stopCalled s.id]
      | none => []
    let filter := e.filterNode.getD defaultFilter
    let src : SourceNode :=
      { id := e.nextId, buf := buf, rate := e.playbackRate,
        detune := e.pitchShift, ended := false }
    let e2 : Engine :=
      { e with
        sourceNode := some src
        filterNode := some filter
        isPlaying := true
        startTime := ctxTime
        nextId := e.nextId + 1 }
    (e2, stopEvents ++ [EngineEvent.started src.id])

/-- `playAudio` followed by the parameter `useEffect`, which React runs after
the `setSourceNode`/`setFilterNode` updates commit. -/
def attachAndPlay (buffer : Option SampleBuffer) (ctxTime : ℚ) (e : Engine) :
    Engine × List EngineEvent :=
  let r := playAudio buffer ctxTime e
  (paramsEffect r.1, r.2)

/-- The `source.onended` callback: `setIsPlaying(false)`; the platform marks
the source ended. -/
def naturalEnd (e : Engine) : Engine :=
  { e with
    isPlaying := false
    sourceNode := e.sourceNode.map (fun s => { s with ended := true }) }

/-- `handleStop` from `src/App.tsx`: if a source exists, issue a stop call
(`try/catch` swallows any error) and set `isPlaying` to false; otherwise do
nothing. -/
def handleStop (e : Engine) : Engine × List EngineEvent :=
  match e.sourceNode with
  | none => (e, [])
  | some s => ({ e with isPlaying := false }, [EngineEvent.stopCalled s.id])

/-- One run of the karaoke `useEffect` body at clock value `now`: while
playing with a decoded buffer it stores the tick index for elapsed time
`now - startTime` and duration `buffer.duration / playbackRate`; otherwise
(stop or natural end flipped `isPlaying`) it cancels the loop and resets the
cursor to -1. -/
def karaokeEffect (words : List String) (now : ℚ) (e : Engine) : Engine :=
  match e.audioBuffer, e.isPlaying with
  | some b, true =>
      let d := effectiveDuration b.duration e.playbackRate
      { e with currentWordIndex := karaokeIndex (now - e.startTime) d words.length }
  | _, _ => { e with currentWordIndex := -1 }

/-- C2: at most one source is active.  A `playAudio` call on an engine with
an active source issues a stop call to it; after two successive
`attachAndPlay` calls exactly one source is active (the model holds at most
one), it is the fresh second source, and the first source received a stop
call during the second attach. -/
theorem at_most_one_active_source (e : Engine) (b b1 b2 : SampleBuffer)
    (t t1 t2 : ℚ) (s0 : SourceNode) (h : e.sourceNode = some s0) :
    EngineEvent.stopCalled s0.id ∈ (attachAndPlay (some b) t e).2 ∧
    ((attachAndPlay (some b1) t1 e).1).sourceNode.map SourceNode.id
      = some e.nextId ∧
    ((attachAndPlay (some b2) t2 (attachAndPlay (some b1) t1 e).1).1).sourceNode.map
        SourceNode.id = some (e.nextId + 1) ∧
    EngineEvent.stopCalled e.nextId
      ∈ (attachAndPlay (some b2) t2 (attachAndPlay (some b1) t1 e).1).2 ∧
    ((attachAndPlay (some b2) t2 (attachAndPlay (some b1) t1 e).1).1).sourceNode.isSome
      = true := by
  refine ⟨?_, ?_, ?_, ?_, ?_⟩ <;>
    simp [attachAndPlay, playAudio, paramsEffect, h]

/-- A concrete source used to instantiate theorems with hypotheses. -/
def demoSource : SourceNode :=
  { id := 7, buf := demoBuffer, rate := 1, detune := 0, ended := false }

/-- A concrete engine in the Playing state. -/
def playingEngine : Engine :=
  { sourceNode := some demoSource
    filterNode := some defaultFilter
    isPlaying := true
    audioBuffer := some demoBuffer
    currentWordIndex := 0
    playbackRate := 1
    pitchShift := 0
    emphasis := 0
    startTime := 0
    nextId := 8 }

/-- A concrete engine in the Idle state (no source ever attached). -/
def idleEngine : Engine :=
  { sourceNode := none
    filterNode := none
    isPlaying := false
    audioBuffer := none
    currentWordIndex := -1
    playbackRate := 1
    pitchShift := 0
    emphasis := 0
    startTime := 0
    nextId := 0 }

/-- Witness for `at_most_one_active_source` at the concrete `playingEngine`. -/
theorem at_most_one_active_source_witness :
    EngineEvent.stopCalled demoSource.id
      ∈ (attachAndPlay (some demoBuffer) 0 playingEngine).2 :=
  (at_most_one_active_source playingEngine demoBuffer demoBuffer demoBuffer
    0 0 0 demoSource rfl).1

theorem engine_set_isPlaying_self (x : Engine) (h : x.isPlaying = false) :
    { x with isPlaying := false } = x := by
  cases x
  simp_all

/-- C8: `handleStop` with no active source is a no-op returning the state
unchanged and issuing no calls; after a natural end it leaves the engine
state unchanged; it never surfaces an error (the stop call is wrapped in
`try/catch`); and it is idempotent on the engine state. -/
theorem stop_noop_idempotent (e1 e2 e3 : Engine) (h : e1.sourceNode = none) :
    handleStop e1 = (e1, []) ∧
    (handleStop (naturalEnd e2)).1 = naturalEnd e2 ∧
    EngineEvent.errorRaised ∉ (handleStop e3).2 ∧
    (handleStop (handleStop e3).1).1 = (handleStop e3).1 := by
  refine ⟨?_, ?_, ?_, ?_⟩
  · simp [handleStop, h]
  · have key : ∀ x : Engine, x.isPlaying = false → (handleStop x).1 = x := by
      intro x hx
      unfold handleStop
      split
      · rfl
      · exact engine_set_isPlaying_self x hx
    exact key (naturalEnd e2) rfl
  · cases h3 : e3.sourceNode <;> simp [handleStop, h3]
  · cases h3 : e3.sourceNode <;> simp [handleStop, h3]

/-- Witness for `stop_noop_idempotent` at the concrete `idleEngine`. -/
theorem stop_noop_idempotent_witness :
    handleStop idleEngine = (idleEngine, []) :=
  (stop_noop_idempotent idleEngine idleEngine idleEngine rfl).1

/-- C9: `updateParams` with no active source issues no calls and raises
nothing, touches nothing but the stored parameter slots (the three state
values and the gain already applied to the persistent filter), and the
stored values are exactly what the next `attachAndPlay` applies to the new
source (rate, detune) and to the filter (gain). -/
theorem params_retained_without_source (e : Engine) (r p g t : ℚ)
    (b : SampleBuffer) (h : e.sourceNode = none) :
    (updateParams r p g e).2 = [] ∧
    ((updateParams r p g e).1).sourceNode = none ∧
    ((updateParams r p g e).1).isPlaying = e.isPlaying ∧
    ((updateParams r p g e).1).audioBuffer = e.audioBuffer ∧
    ((updateParams r p g e).1).currentWordIndex = e.currentWordIndex ∧
    ((updateParams r p g e).1).startTime = e.startTime ∧
    ((updateParams r p g e).1).nextId = e.nextId ∧
    ((updateParams r p g e).1).playbackRate = r ∧
    ((updateParams r p g e).1).pitchShift = p ∧
    ((updateParams r p g e).1).emphasis = g ∧
    ((updateParams r p g e).1).filterNode
      = e.filterNode.map (fun f => { f with gain := g }) ∧
    ((attachAndPlay (some b) t (updateParams r p g e).1).1).sourceNode.map
        SourceNode.rate = some r ∧
    ((attachAndPlay (some b) t (updateParams r p g e).1).1).sourceNode.map
        SourceNode.detune = some p ∧
    ((attachAndPlay (some b) t (updateParams r p g e).1).1).filterNode.map
        FilterNode.gain = some g := by
  refine ⟨rfl, ?_, rfl, rfl, rfl, rfl, rfl, rfl, rfl, rfl, rfl, ?_, ?_, ?_⟩ <;>
    cases hf : e.filterNode <;>
      simp [updateParams, paramsEffect, attachAndPlay, playAudio, h, hf]

/-- Witness for `params_retained_without_source` at the concrete `idleEngine`. -/
theorem params_retained_without_source_witness :
    ((attachAndPlay (some demoBuffer) 0 (updateParams (6/5) 300 5 idleEngine).1).1).filterNode.map
        FilterNode.gain = some 5 :=
  (params_retained_without_source idleEngine (6/5) 300 5 0 demoBuffer rfl).2.2.2.2.2.2.2.2.2.2.2.2.2

theorem karaokeIndex_mono (d : ℚ) (n : Nat) (x y : ℚ) (hd : 0 < d)
    (hxy : x ≤ y) : karaokeIndex x d n ≤ karaokeIndex y d n := by
  unfold karaokeIndex
  apply Int.floor_le_floor
  apply mul_le_mul_of_nonneg_right _ (by positivity)
  exact min_le_min le_rfl (by gcongr)

/-- C7: with fixed parameters and a monotone clock, the indices emitted by
successive karaoke ticks of one playback are monotonically non-decreasing,
and the cursor is reset to -1 by the tick following an external stop or a
natural end. -/
theorem karaoke_monotone_reset (e e2 e3 : Engine) (b : SampleBuffer)
    (s : SourceNode) (words : List String) (ts : List ℚ) (t t' : ℚ)
    (hp : e.isPlaying = true) (hb : e.audioBuffer = some b)
    (hd : 0 < effectiveDuration b.duration e.playbackRate)
    (hts : List.Pairwise (fun x y => x ≤ y) ts)
    (hs : e2.sourceNode = some s) :
    List.Pairwise (fun x y => x ≤ y)
      (ts.map (fun tick => (karaokeEffect words tick e).currentWordIndex)) ∧
    (karaokeEffect words t (handleStop e2).1).currentWordIndex = -1 ∧
    (karaokeEffect words t' (naturalEnd e3)).currentWordIndex = -1 := by
  refine ⟨?_, ?_, ?_⟩
  · have hemit : ∀ tick : ℚ, (karaokeEffect words tick e).currentWordIndex
        = karaokeIndex (tick - e.startTime)
            (effectiveDuration b.duration e.playbackRate) words.length := by
      intro tick
      simp [karaokeEffect, hb, hp]
    refine List.Pairwise.map _ ?_ hts
    intro x y hxy
    rw [hemit x, hemit y]
    exact karaokeIndex_mono _ _ _ _ hd (by linarith)
  · cases hab : e2.audioBuffer <;> simp [karaokeEffect, handleStop, hs, hab]
  · cases hab : e3.audioBuffer <;> simp [karaokeEffect, naturalEnd, hab]

/-- Witness for `karaoke_monotone_reset` at the concrete `playingEngine`. -/
theorem karaoke_monotone_reset_witness :
    (karaokeEffect ["A", "B"] 1 (handleStop playingEngine).1).currentWordIndex = -1 :=
  (karaoke_monotone_reset playingEngine playingEngine playingEngine demoBuffer
    demoSource ["A", "B"] [0, 1/2, 1] 1 1 rfl rfl
    (by norm_num [effectiveDuration, SampleBuffer.duration, demoBuffer, playingEngine])
    (by norm_num) rfl).2.1

/-- C10: once the elapsed time reaches the effective duration, the karaoke
tick stores index `wordCount` (`floor(1 * wordCount)`), which is out of range
for the zero-based transcript; the tick schedules no successor (`elapsed <
duration` fails), so the value persists until the stop path resets the cursor
to -1. -/
theorem karaoke_overrun (e : Engine) (b : SampleBuffer) (s : SourceNode)
    (words : List String) (now now2 : ℚ)
    (hp : e.isPlaying = true) (hb : e.audioBuffer = some b)
    (hs : e.sourceNode = some s)
    (hd : 0 < effectiveDuration b.duration e.playbackRate)
    (hel : effectiveDuration b.duration e.playbackRate ≤ now - e.startTime) :
    (karaokeEffect words now e).currentWordIndex = (words.length : Int) ∧
    words[((karaokeEffect words now e).currentWordIndex).toNat]? = none ∧
    ¬(now - e.startTime < effectiveDuration b.duration e.playbackRate) ∧
    (karaokeEffect words now2 (handleStop e).1).currentWordIndex = -1 := by
  have hidx : (karaokeEffect words now e).currentWordIndex = (words.length : Int) := by
    simp only [karaokeEffect, hb, hp]
    have h1 : (1 : ℚ) ≤ (now - e.startTime) / effectiveDuration b.duration e.playbackRate :=
      (one_le_div hd).mpr hel
    rw [karaokeIndex, min_eq_left h1, one_mul, Int.floor_natCast]
  refine ⟨hidx, ?_, not_lt.mpr hel, ?_⟩
  · rw [hidx, Int.toNat_natCast]
    exact List.getElem?_eq_none le_rfl
  · cases hab : e.audioBuffer <;> simp [karaokeEffect, handleStop, hs, hab]

/-- Witness for `karaoke_overrun` at the concrete `playingEngine` past the
end of its half-millisecond-per-frame buffer. -/
theorem karaoke_overrun_witness :
    (karaokeEffect ["A", "B"] 1 playingEngine).currentWordIndex
      = ((["A", "B"] : List String).length : Int) :=
  (karaoke_overrun playingEngine demoBuffer demoSource ["A", "B"] 1 1 rfl rfl rfl
    (by norm_num [effectiveDuration, SampleBuffer.duration, demoBuffer, playingEngine])
    (by norm_num [effectiveDuration, SampleBuffer.duration, demoBuffer, playingEngine])).1

end AIVoice
